import Mathlib

/-!
Shallow embedding of the session-orchestrator core of the roon-tui repository
(src/app/mod.rs, src/app/stateful_list.rs, src/io/roon.rs, src/io/roon_browse.rs,
src/io/roon_settings.rs), together with theorems settling the frozen claims
about it.

Rust `Option<T>` is `Option T`; Rust `?` early returns are modelled
explicitly; a `Vec` index out of bounds (`Vec::insert`, `Vec::remove`,
slicing, `rng.gen_range` on an empty range, `Option::unwrap` on `None`)
aborts the thread and is modelled by a dedicated `panic` constructor.
-/

/-- Outcome of running a handler body to completion: either the thread
panicked (a `Vec` bounds violation or `unwrap` of `None`), or it returned
normally with a value (`?` short-circuits are folded into the value). -/
inductive RunOut (α : Type) where
  | panic : RunOut α
  | ok (a : α) : RunOut α
deriving DecidableEq, Repr

/-- Outcome of the diff loop inside `App::apply_queue_changes`:
`panic` for a `Vec` bounds violation, `early q` when a `?` on a missing
`items`/`count` field returned `None` from the function with the queue
mutated up to that point, `done q` when every diff applied. -/
inductive LoopOut (α : Type) where
  | panic : LoopOut α
  | early (a : α) : LoopOut α
  | done (a : α) : LoopOut α
deriving DecidableEq, Repr

/-! ### Queue materializer (src/app/mod.rs, src/app/stateful_list.rs) -/

/-- `roon_api::transport::TwoLine`: the two display lines of a queue item. -/
structure TwoLine where
  line1 : String
  line2 : String
deriving DecidableEq, Repr

/-- `roon_api::transport::QueueItem`: stable id, length in seconds, display lines. -/
structure QueueItem where
  queue_item_id : Nat
  length : Nat
  two_line : TwoLine
deriving DecidableEq, Repr

/-- `roon_api::transport::QueueOperation`. -/
inductive QueueOperation where
  | insert
  | remove
deriving DecidableEq, Repr

/-- `roon_api::transport::QueueChange`: one positional diff against the queue. -/
structure QueueChange where
  operation : QueueOperation
  index : Nat
  items : Option (List QueueItem)
  count : Option Nat
deriving DecidableEq, Repr

/-- Rust `Vec::insert(i, a)`: panics (`none`) when `i > len`. -/
def vecInsert {α : Type} : List α → Nat → α → Option (List α)
  | l, 0, a => some (a :: l)
  | [], _ + 1, _ => none
  | x :: xs, i + 1, a => (vecInsert xs i a).map (x :: ·)

/-- Rust `Vec::remove(i)` (element dropped): panics (`none`) when `i >= len`. -/
def vecRemove {α : Type} : List α → Nat → Option (List α)
  | [], _ => none
  | _ :: xs, 0 => some xs
  | x :: xs, i + 1 => (vecRemove xs i).map (x :: ·)

/-- The `Insert` arm of `apply_queue_changes`: items are inserted one by one at
`index + i` (`queue.insert(change.index + i, item)`); `i` is the loop counter. -/
def insertLoop (q : List QueueItem) (index : Nat) : List QueueItem → Nat → Option (List QueueItem)
  | [], _ => some q
  | it :: rest, i =>
    match vecInsert q (index + i) it with
    | none => none
    | some q' => insertLoop q' index rest (i + 1)

/-- The `Remove` arm of `apply_queue_changes`: `count` repetitions of
`queue.remove(change.index)`. -/
def removeLoop (q : List QueueItem) (index : Nat) : Nat → Option (List QueueItem)
  | 0 => some q
  | n + 1 =>
    match vecRemove q index with
    | none => none
    | some q' => removeLoop q' index n

/-- One iteration of the diff loop in `App::apply_queue_changes`
(src/app/mod.rs lines 236-251).  A missing `items`/`count` field hits a `?`
and exits the function early; an out-of-range index panics. -/
def applyChange (q : List QueueItem) (c : QueueChange) : LoopOut (List QueueItem) :=
  match c.operation with
  | QueueOperation.insert =>
    match c.items with
    | none => LoopOut.early q
    | some its =>
      match insertLoop q c.index its 0 with
      | none => LoopOut.panic
      | some q' => LoopOut.done q'
  | QueueOperation.remove =>
    match c.count with
    | none => LoopOut.early q
    | some n =>
      match removeLoop q c.index n with
      | none => LoopOut.panic
      | some q' => LoopOut.done q'

/-- The whole diff loop: diffs apply in order, each against the queue as
mutated by the prior diffs of the same batch. -/
def applyChangesLoop (q : List QueueItem) : List QueueChange → LoopOut (List QueueItem)
  | [] => LoopOut.done q
  | c :: cs =>
    match applyChange q c with
    | LoopOut.panic => LoopOut.panic
    | LoopOut.early q' => LoopOut.early q'
    | LoopOut.done q' => applyChangesLoop q' cs

/-- `StatefulList::select` (src/app/stateful_list.rs lines 40-51): selecting
`None` does NOT clear the selection, it selects index 0. -/
def statefulListSelect (index : Option Nat) : Option Nat :=
  if index.isSome then index else some 0

/-- `App::apply_queue_changes` (src/app/mod.rs lines 233-260) acting on the
queue `StatefulList` state: `items` is `self.queue.items`, `sel` is
`self.queue.state.selected()`, `selected` is the previous selection's
`two_line.line1` label passed by the caller.  Returns the final
`(items, selection)` pair, or `panic`. -/
def apply_queue_changes (items : Option (List QueueItem)) (sel : Option Nat)
    (changes : List QueueChange) (selected : Option String) :
    RunOut (Option (List QueueItem) × Option Nat) :=
  match items with
  | none => RunOut.ok (none, sel)
  | some q =>
    match applyChangesLoop q changes with
    | LoopOut.panic => RunOut.panic
    | LoopOut.early q' => RunOut.ok (some q', sel)
    | LoopOut.done q' =>
      match selected with
      | some s =>
        let index := q'.findIdx? (fun item => item.two_line.line1 == s)
        RunOut.ok (some q', statefulListSelect index)
      | none => RunOut.ok (some q', sel)

/-- A diff is valid against a queue when its payload fields are present and its
indices stay inside the queue (the claims' validity premise). -/
def validChange (q : List QueueItem) (c : QueueChange) : Bool :=
  match c.operation with
  | QueueOperation.insert => c.items.isSome && decide (c.index ≤ q.length)
  | QueueOperation.remove =>
    match c.count with
    | none => false
    | some n => decide (c.index + n ≤ q.length)

/-- A batch is valid when each diff is valid against the queue as mutated by
the prior diffs of the batch. -/
def validBatch (q : List QueueItem) : List QueueChange → Bool
  | [] => true
  | c :: cs =>
    validChange q c &&
      match applyChange q c with
      | LoopOut.done q' => validBatch q' cs
      | _ => false

/-- Total number of items inserted by a batch. -/
def totalInserted (changes : List QueueChange) : Nat :=
  changes.foldr (fun c acc =>
    match c.operation, c.items with
    | QueueOperation.insert, some its => its.length + acc
    | _, _ => acc) 0

/-- Total number of items removed by a batch. -/
def totalRemoved (changes : List QueueChange) : Nat :=
  changes.foldr (fun c acc =>
    match c.operation, c.count with
    | QueueOperation.remove, some n => n + acc
    | _, _ => acc) 0

/-! ### Grouping & preset engine (src/io/roon.rs) -/

/-- A stored preset: ordered list of (output id, optional saved volume).
The Rust volume is an `f32` that no logic here ever reads or compares, so it
is carried as an opaque `Option Int` payload. -/
def PresetTable : Type := List (String × List (String × Option Int))

/-- `RoonHandler::match_preset` (src/io/roon.rs lines 688-709; the identical
`RoonSettings::match_preset` is src/io/roon_settings.rs lines 247-270).
`output_ids[1..].sort()` panics when `output_ids` is empty; the `?` on a
missing preset table returns `None`. -/
def match_preset (presets : Option PresetTable) (output_ids : List String) :
    RunOut (Option String) :=
  match output_ids with
  | [] => RunOut.panic
  | anchor :: tail =>
    let sorted_ids := anchor :: tail.mergeSort (fun a b => a ≤ b)
    match presets with
    | none => RunOut.ok none
    | some table =>
      RunOut.ok (table.findSome? (fun preset =>
        if sorted_ids.length == preset.2.length then
          if (preset.2.filter (fun p => sorted_ids.contains p.1)).length
              == preset.2.length then
            some preset.1
          else
            none
        else
          none))

/-- `roon_api::transport::Output` (fields used by this core). -/
structure Output where
  output_id : String
  display_name : String
deriving DecidableEq, Repr

/-- `roon_api::transport::Zone` (fields used by this core). -/
structure Zone where
  zone_id : String
  display_name : String
  outputs : List Output
deriving DecidableEq, Repr

/-- A transport grouping command issued by `update_grouping`. -/
inductive GroupCommand where
  | group (ids : List String)
  | ungroup (ids : List String)
deriving DecidableEq, Repr

/-- The observable outcome of one `update_grouping` call. -/
structure GroupingResult where
  commands : List GroupCommand
  matched_zones : List (String × String)
  sent_zone_list : Bool
  sent_preset_matched : Option String
  pending : Option (List String)
deriving DecidableEq, Repr

/-- The `matches_all` test of `update_grouping` (src/io/roon.rs lines
1053-1056): same length, same first (anchor) id, and every target id among
the zone's current ids. -/
def zoneMatchesTarget (current_ids : List String) (output_ids : List String) : Bool :=
  output_ids.length == current_ids.length &&
    output_ids.head? == current_ids.head? &&
    output_ids.all (fun output_id => current_ids.contains output_id)

/-- The `overlaps` test of `update_grouping` (src/io/roon.rs lines 1057-1058). -/
def zoneOverlapsTarget (current_ids : List String) (output_ids : List String) : Bool :=
  current_ids.any (fun current_id => output_ids.contains current_id)

/-- The per-zone loop of `RoonHandler::update_grouping` (src/io/roon.rs lines
1049-1075), followed by the trailing group request (lines 1077-1083).
`hasTransport` models `self.transport.as_ref()?`: when the transport is gone
the `?` exits with `None` and no command is sent. -/
def updateGroupingLoop (hasTransport : Bool) (presets : Option PresetTable)
    (matched_zones : List (String × String)) (new_ids : List String) :
    List Zone → RunOut GroupingResult
  | [] =>
    if new_ids.length > 1 then
      if hasTransport then
        RunOut.ok ⟨[GroupCommand.group new_ids], matched_zones, false, none, some new_ids⟩
      else
        RunOut.ok ⟨[], matched_zones, false, none, none⟩
    else
      RunOut.ok ⟨[], matched_zones, false, none, none⟩
  | z :: rest =>
    let current_ids := z.outputs.map (fun output => output.output_id)
    if zoneMatchesTarget current_ids new_ids then
      match match_preset presets new_ids with
      | RunOut.panic => RunOut.panic
      | RunOut.ok preset =>
        match preset with
        | some name =>
          RunOut.ok ⟨[], (z.zone_id, name) :: matched_zones, true, some name, none⟩
        | none => RunOut.ok ⟨[], matched_zones, false, none, none⟩
    else
      if current_ids.length > 1 && zoneOverlapsTarget current_ids new_ids then
        if hasTransport then
          RunOut.ok ⟨[GroupCommand.ungroup current_ids], matched_zones, false, none, some new_ids⟩
        else
          RunOut.ok ⟨[], matched_zones, false, none, none⟩
      else
        updateGroupingLoop hasTransport presets matched_zones new_ids rest

/-- `RoonHandler::update_grouping` (src/io/roon.rs lines 1044-1084).  The zone
map is iterated in list order (the Rust `HashMap` iteration order is
unspecified).  `pending` is the returned `Option<Vec<String>>` stored by the
caller into `zone_output_ids`. -/
def update_grouping (hasTransport : Bool) (presets : Option PresetTable)
    (matched_zones : List (String × String)) (zones : List Zone)
    (new_ids : List String) : RunOut GroupingResult :=
  updateGroupingLoop hasTransport presets matched_zones new_ids zones

/-! ### Zone display list (src/io/roon.rs `send_zone_list`) -/

/-- `EndPoint` (src/io/mod.rs lines 17-22). -/
inductive EndPoint where
  | zone (id : String)
  | output (id : String)
  | preset (name : String)
deriving DecidableEq, Repr

/-- The comparator `name_sort` of `send_zone_list`: Rust
`a.1.cmp(&b.1)` on the display-name component. -/
def nameLe (a b : EndPoint × String) : Bool :=
  a.2 ≤ b.2

/-- The `zones` segment of `send_zone_list` (src/io/roon.rs lines 745-755)
before sorting: one entry per zone, with the display name replaced by the
preset name when the zone is in `matched_zones`. -/
def zoneEntries (zone_map : List (String × Zone))
    (matched_zones : List (String × String)) : List (EndPoint × String) :=
  zone_map.map (fun entry =>
    let display_name :=
      match (matched_zones.find? (fun m => m.1 == entry.1)).map (fun m => m.2) with
      | some preset => preset
      | none => entry.2.display_name
    (EndPoint.zone entry.1, display_name))

/-- The `outputs` segment of `send_zone_list` (src/io/roon.rs lines 759-769)
before sorting: one entry per output of every zone exposing more than one
output. -/
def outputEntries (zone_map : List (String × Zone)) : List (EndPoint × String) :=
  (zone_map.filter (fun entry => entry.2.outputs.length > 1)).flatMap
    (fun entry => entry.2.outputs.map (fun output =>
      (EndPoint.output output.output_id, output.display_name)))

/-- The `presets` segment of `send_zone_list` (src/io/roon.rs lines 774-788)
before sorting: one entry per saved preset not matched to a live zone. -/
def presetEntries (matched_zones : List (String × String)) (table : PresetTable) :
    List (EndPoint × String) :=
  table.filterMap (fun preset =>
    if matched_zones.any (fun m => m.2 == preset.1) then
      none
    else
      some (EndPoint.preset preset.1, preset.1))

/-- `RoonHandler::send_zone_list` (src/io/roon.rs lines 743-795): the display
list sent in the `Zones` event.  Each of the three segments is sorted by
`name_sort` and the segments are concatenated. -/
def send_zone_list (zone_map : List (String × Zone))
    (matched_zones : List (String × String)) (presets : Option PresetTable) :
    List (EndPoint × String) :=
  let zones := (zoneEntries zone_map matched_zones).mergeSort nameLe
  let outputs := (outputEntries zone_map).mergeSort nameLe
  let zones := zones ++ outputs
  match presets with
  | none => zones
  | some table => zones ++ (presetEntries matched_zones table).mergeSort nameLe

/-- Discriminator for the three `EndPoint` constructors. -/
def endPointKind : EndPoint → Nat
  | EndPoint.zone _ => 0
  | EndPoint.output _ => 1
  | EndPoint.preset _ => 2

/-! ### Browse navigator (src/io/roon.rs, src/io/roon_browse.rs) -/

/-- `roon_api::browse::Item` (fields used by this core). -/
structure BrowseItem where
  title : String
  item_key : Option String
deriving DecidableEq, Repr

/-- Association-table lookup modelling `HashMap::get` (keys are unique). -/
def tblLookup {α : Type} (t : List (String × α)) (k : String) : Option α :=
  (t.find? (fun p => p.1 == k)).map (fun p => p.2)

/-- In-place update through `HashMap::get_mut`. -/
def tblUpdate {α : Type} (t : List (String × α)) (k : String) (v : α) :
    List (String × α) :=
  t.map (fun p => if p.1 == k then (k, v) else p)

/-- `HashMap::remove`. -/
def tblRemove {α : Type} (t : List (String × α)) (k : String) : List (String × α) :=
  t.filter (fun p => !(p.1 == k))

/-- Item selection of the scripted `LoadResult` branch (src/io/roon.rs lines
406-416): an empty-string step selects the item titled with the persisted
profile name when the list is "Profile" (none selected when no profile is
set), otherwise the first item; a non-empty step selects the item whose title
equals it. -/
def selectItem (step : String) (listTitle : String) (items : List BrowseItem)
    (profile : Option String) : Option BrowseItem :=
  if step == "" then
    if listTitle == "Profile" then
      match profile with
      | none => none
      | some p => items.find? (fun item => item.title == p)
    else
      items.head?
  else
    items.find? (fun item => item.title == step)

/-- One scripted `LoadResult` response (src/io/roon.rs lines 398-426): the
pending script for the session key is popped from its end (`Vec::pop`); the
session is removed when the script empties; a browse request is issued when an
item matches (and the browse service is present).  Returns the new session
table and whether a browse request was issued. -/
def scriptedLoadStep (paths : List (String × List String)) (key : String)
    (listTitle : String) (items : List BrowseItem) (profile : Option String)
    (hasBrowse : Bool) : List (String × List String) × Bool :=
  match tblLookup paths key with
  | none => (paths, false)
  | some script =>
    match script.getLast? with
    | none => (paths, false)
    | some step =>
      let rest := script.dropLast
      let paths' := if rest.isEmpty then tblRemove paths key else tblUpdate paths key rest
      let item := selectItem step listTitle items profile
      (paths', item.isSome && hasBrowse)

/-- A `LoadResult` push for a scripted session: the list title and the loaded
items. -/
structure LoadResponse where
  listTitle : String
  items : List BrowseItem
deriving DecidableEq, Repr

/-- Feeding a sequence of `LoadResult` responses for one session key through
the scripted branch; counts the browse requests issued. -/
def runScripted (paths : List (String × List String)) (key : String)
    (profile : Option String) (hasBrowse : Bool) :
    List LoadResponse → List (String × List String) × Nat
  | [] => (paths, 0)
  | r :: rs =>
    let step := scriptedLoadStep paths key r.listTitle r.items profile hasBrowse
    let tail := runScripted step.1 key profile hasBrowse rs
    (tail.1, (if step.2 then 1 else 0) + tail.2)

/-- `roon_api::browse::List` (fields used by the `Action::List` arm). -/
structure ListM where
  title : String
  count : Nat
  display_offset : Option Nat
deriving DecidableEq, Repr

/-- `roon_api::browse::LoadOpts` (fields set by the `Action::List` arm). -/
structure LoadOptsM where
  offset : Nat
  set_display_offset : Nat
  count : Option Nat
  multi_session_key : Option String
deriving DecidableEq, Repr

/-- The `Action::List` arm of `RoonHandler::handle_msg_event` (src/io/roon.rs
lines 329-353).  `rng` is the thread-rng draw: `rng.gen_range(0..count)`
yields `rng % count` and panics on an empty range (`count == 0`).  Returns
the `LoadOpts` of the issued load, `none` when a `?` short-circuited before
the load. -/
def listArm (list : Option ListM) (multi_session_key : Option String)
    (rng : Nat) (hasBrowse : Bool) : RunOut (Option LoadOptsM) :=
  match list with
  | none => RunOut.ok none
  | some l =>
    match multi_session_key with
    | none => RunOut.ok none
    | some key =>
      if key == "tui_browse" then
        let offset := l.display_offset.getD 0
        RunOut.ok (if hasBrowse then
          some ⟨offset, offset, none, some key⟩ else none)
      else
        if l.title == "Albums" || l.title == "Tracks" then
          if l.count == 0 then
            RunOut.panic
          else
            let offset := rng % l.count
            RunOut.ok (if hasBrowse then
              some ⟨offset, offset, some 1, some key⟩ else none)
        else
          RunOut.ok (if hasBrowse then some ⟨0, 0, none, some key⟩ else none)

/-- The `Action::Message` arm of `RoonHandler::handle_msg_event`
(src/io/roon.rs lines 354-366): `result.is_error.unwrap()` and
`result.message.unwrap()` panic when the field is absent.  Returns the new
`opts.item_key` and whether a `ZoneSelect` event was sent. -/
def handleMessageArm (isErrorField : Option Bool) (messageField : Option String)
    (zoneMapEmpty : Bool) (itemKey : Option String) :
    RunOut (Option String × Bool) :=
  match isErrorField with
  | none => RunOut.panic
  | some isErr =>
    match messageField with
    | none => RunOut.panic
    | some message =>
      if isErr && message == "Zone is not configured" then
        let itemKey := if zoneMapEmpty then none else itemKey
        RunOut.ok (itemKey, true)
      else
        RunOut.ok (itemKey, false)

/-! ### Primary-session browse list reconciliation (src/app/mod.rs) -/

/-- `View` (src/app/mod.rs lines 21-31). -/
inductive View where
  | browse
  | queue
  | nowPlaying
  | prompt
  | zones
  | grouping
  | groupingPreset
  | help
deriving DecidableEq, Repr

/-- State touched by the `IoEvent::BrowseList` arm: the held browse items, the
browse selection, and whether a `BrowseRefresh` request was sent. -/
structure BrowseListState where
  items : Option (List BrowseItem)
  sel : Option Nat
  refreshSent : Bool
deriving DecidableEq, Repr

/-- The `IoEvent::BrowseList` arm of `App::update_on_event` (src/app/mod.rs
lines 104-123): a chunk at offset 0 replaces the held list; a chunk at offset
= held length appends; any other offset against a held list sends
`BrowseRefresh` and leaves the held items untouched. -/
def browseListArm (held : Option (List BrowseItem)) (sel : Option Nat)
    (selectedView : Option View) (offset : Nat) (incoming : List BrowseItem) :
    BrowseListState :=
  if offset == 0 then
    let sel' := if selectedView == some View.browse then statefulListSelect (some 0) else sel
    ⟨some incoming, sel', false⟩
  else
    match held with
    | none => ⟨none, sel, false⟩
    | some browse_items =>
      if offset == browse_items.length then
        ⟨some (browse_items ++ incoming), statefulListSelect (some 0), false⟩
      else
        ⟨some browse_items, sel, true⟩

/-! ### Concrete states used by witnesses and counterexamples -/

/-- A queue item titled "A". -/
def itemA : QueueItem := ⟨1, 180, ⟨"A", "Artist 1"⟩⟩

/-- A queue item titled "B". -/
def itemB : QueueItem := ⟨2, 200, ⟨"B", "Artist 2"⟩⟩

/-- A queue item titled "C". -/
def itemC : QueueItem := ⟨3, 220, ⟨"C", "Artist 3"⟩⟩

/-- The diff `Remove(0, 1)`. -/
def removeHead : QueueChange := ⟨QueueOperation.remove, 0, none, some 1⟩

/-- The diff `Remove(1, 1)`. -/
def removeSecond : QueueChange := ⟨QueueOperation.remove, 1, none, some 1⟩

/-- An output with id "a". -/
def outA : Output := ⟨"a", "A"⟩

/-- An output with id "c". -/
def outC : Output := ⟨"c", "C"⟩

/-- A single-output zone whose output set is exactly the target `["a"]`. -/
def zoneSolo : Zone := ⟨"z1", "Solo", [outA]⟩

/-- A two-output zone overlapping the target `["a"]`. -/
def zonePair : Zone := ⟨"z2", "Pair", [outA, outC]⟩

/-- A preset table with one three-output preset anchored at "x". -/
def presetsXYZ : PresetTable := [("P", [("x", none), ("y", none), ("z", none)])]

/-- A zone named "B" exposing two outputs named "A" and "C". -/
def zoneNamedB : Zone := ⟨"z1", "B", [⟨"oa", "A"⟩, ⟨"oc", "C"⟩]⟩

/-- A zone named "D" sharing output "oa" with `zoneNamedB`. -/
def zoneNamedD : Zone := ⟨"z2", "D", [⟨"oa", "A"⟩, ⟨"oe", "E"⟩]⟩

/-- A zone map on which `send_zone_list` is neither globally sorted nor
duplicate-free. -/
def zoneMapCex : List (String × Zone) := [("z1", zoneNamedB), ("z2", zoneNamedD)]

/-- A one-zone, one-output zone map. -/
def zoneMapSolo : List (String × Zone) := [("z1", zoneSolo)]

/-! ### Helper lemmas (queue materializer) -/

lemma vecInsert_spec {α : Type} (a : α) :
    ∀ (i : Nat) (l : List α), i ≤ l.length →
      ∃ l', vecInsert l i a = some l' ∧ l'.length = l.length + 1 := by
  intro i
  induction i with
  | zero => intro l _; exact ⟨a :: l, by cases l <;> rfl, by simp⟩
  | succ n ih =>
    intro l h
    match l with
    | [] => simp at h
    | x :: xs =>
      obtain ⟨l', hl', hlen⟩ := ih xs (by simpa using h)
      exact ⟨x :: l', by simp [vecInsert, hl'], by simp [hlen]⟩

lemma vecRemove_spec {α : Type} :
    ∀ (i : Nat) (l : List α), i < l.length →
      ∃ l', vecRemove l i = some l' ∧ l'.length + 1 = l.length := by
  intro i
  induction i with
  | zero =>
    intro l h
    match l with
    | [] => simp at h
    | x :: xs => exact ⟨xs, rfl, by simp⟩
  | succ n ih =>
    intro l h
    match l with
    | [] => simp at h
    | x :: xs =>
      obtain ⟨l', hl', hlen⟩ := ih xs (by simpa using h)
      exact ⟨x :: l', by simp [vecRemove, hl'], by simp [← hlen]⟩

lemma insertLoop_spec (index : Nat) :
    ∀ (its : List QueueItem) (q : List QueueItem) (i : Nat), index + i ≤ q.length →
      ∃ q', insertLoop q index its i = some q' ∧ q'.length = q.length + its.length := by
  intro its
  induction its with
  | nil => intro q i _; exact ⟨q, rfl, by simp⟩
  | cons it rest ih =>
    intro q i h
    obtain ⟨q1, h1, hlen1⟩ := vecInsert_spec it (index + i) q h
    obtain ⟨q', h', hlen'⟩ := ih q1 (i + 1) (by omega)
    exact ⟨q', by simp [insertLoop, h1, h'], by simp [hlen', hlen1]; omega⟩

lemma removeLoop_spec (index : Nat) :
    ∀ (n : Nat) (q : List QueueItem), index + n ≤ q.length →
      ∃ q', removeLoop q index n = some q' ∧ q'.length + n = q.length := by
  intro n
  induction n with
  | zero => intro q _; exact ⟨q, rfl, by simp⟩
  | succ m ih =>
    intro q h
    obtain ⟨q1, h1, hlen1⟩ := vecRemove_spec index q (by omega)
    obtain ⟨q', h', hlen'⟩ := ih q1 (by omega)
    exact ⟨q', by simp [removeLoop, h1, h'], by omega⟩

lemma totalInserted_cons (c : QueueChange) (cs : List QueueChange) :
    totalInserted (c :: cs) = totalInserted [c] + totalInserted cs := by
  simp only [totalInserted, List.foldr]
  cases c.operation <;> cases c.items <;> simp

lemma totalRemoved_cons (c : QueueChange) (cs : List QueueChange) :
    totalRemoved (c :: cs) = totalRemoved [c] + totalRemoved cs := by
  simp only [totalRemoved, List.foldr]
  cases c.operation <;> cases c.count <;> simp

lemma applyChange_valid {q : List QueueItem} {c : QueueChange}
    (h : validChange q c = true) :
    ∃ q', applyChange q c = LoopOut.done q' ∧
      q'.length + totalRemoved [c] = q.length + totalInserted [c] := by
  match hc : c.operation, hi : c.items, hn : c.count with
  | QueueOperation.insert, none, _ =>
    simp [validChange, hc, hi] at h
  | QueueOperation.insert, some its, cnt =>
    simp only [validChange, hc, hi, Option.isSome_some, Bool.true_and,
      decide_eq_true_eq] at h
    obtain ⟨q', h', hlen⟩ := insertLoop_spec c.index its q 0 (by omega)
    refine ⟨q', by simp [applyChange, hc, hi, h'], ?_⟩
    simp [totalRemoved, totalInserted, hc, hi, hn, hlen]
  | QueueOperation.remove, _, none =>
    simp [validChange, hc, hn] at h
  | QueueOperation.remove, its, some n =>
    simp only [validChange, hc, hn, decide_eq_true_eq] at h
    obtain ⟨q', h', hlen⟩ := removeLoop_spec c.index n q h
    refine ⟨q', by simp [applyChange, hc, hn, h'], ?_⟩
    simp [totalRemoved, totalInserted, hc, hn, hi]
    omega

lemma applyChangesLoop_valid :
    ∀ (cs : List QueueChange) (q : List QueueItem), validBatch q cs = true →
      ∃ q', applyChangesLoop q cs = LoopOut.done q' ∧
        q'.length + totalRemoved cs = q.length + totalInserted cs := by
  intro cs
  induction cs with
  | nil => intro q _; exact ⟨q, rfl, by simp [totalRemoved, totalInserted]⟩
  | cons c rest ih =>
    intro q h
    simp only [validBatch, Bool.and_eq_true] at h
    obtain ⟨q1, h1, hlen1⟩ := applyChange_valid h.1
    rw [h1] at h
    obtain ⟨q', h', hlen'⟩ := ih q1 h.2
    refine ⟨q', by simp [applyChangesLoop, h1, h'], ?_⟩
    rw [totalRemoved_cons, totalInserted_cons]
    omega

/-! ### Claims C1, C2, C3: queue materializer -/

/-- Claim C1: for every initial queue snapshot and every batch of queue diffs
whose indices are valid against the queue as mutated by the prior diffs of the
same batch, `apply_queue_changes` produces a queue whose length equals
initial length + total inserted - total removed, and applying the same diff
batch twice from the same starting snapshot (with the same previous selection
label) yields identical resulting queues.  (The embedded code draws no
randomness, so the second application is literally the same pure function
application.) -/
theorem c1_queue_length_determinism (q : List QueueItem) (sel : Option Nat)
    (changes : List QueueChange) (selected : Option String)
    (h : validBatch q changes = true) :
    ∃ q' sel',
      apply_queue_changes (some q) sel changes selected = RunOut.ok (some q', sel') ∧
      q'.length = q.length + totalInserted changes - totalRemoved changes ∧
      q'.length + totalRemoved changes = q.length + totalInserted changes ∧
      apply_queue_changes (some q) sel changes selected =
        apply_queue_changes (some q) sel changes selected := by
  obtain ⟨q', hloop, hlen⟩ := applyChangesLoop_valid changes q h
  cases selected with
  | some s =>
    refine ⟨q', statefulListSelect (q'.findIdx? (fun item => item.two_line.line1 == s)),
      ?_, by omega, hlen, rfl⟩
    simp [apply_queue_changes, hloop]
  | none =>
    refine ⟨q', sel, ?_, by omega, hlen, rfl⟩
    simp [apply_queue_changes, hloop]

/-- Witness for C1: a valid two-diff batch (insert one item at 1, then remove
the head) on a two-item queue yields a queue of length 2 + 1 - 1. -/
theorem c1_witness :
    validBatch [itemA, itemB]
      [⟨QueueOperation.insert, 1, some [itemC], none⟩, removeHead] = true ∧
    ∃ q' sel',
      apply_queue_changes (some [itemA, itemB]) (some 0)
        [⟨QueueOperation.insert, 1, some [itemC], none⟩, removeHead] (some "A") =
        RunOut.ok (some q', sel') ∧
      q'.length = [itemA, itemB].length +
        totalInserted [⟨QueueOperation.insert, 1, some [itemC], none⟩, removeHead] -
        totalRemoved [⟨QueueOperation.insert, 1, some [itemC], none⟩, removeHead] ∧
      q'.length + totalRemoved [⟨QueueOperation.insert, 1, some [itemC], none⟩, removeHead] =
        [itemA, itemB].length +
        totalInserted [⟨QueueOperation.insert, 1, some [itemC], none⟩, removeHead] ∧
      apply_queue_changes (some [itemA, itemB]) (some 0)
        [⟨QueueOperation.insert, 1, some [itemC], none⟩, removeHead] (some "A") =
        apply_queue_changes (some [itemA, itemB]) (some 0)
          [⟨QueueOperation.insert, 1, some [itemC], none⟩, removeHead] (some "A") :=
  ⟨by decide,
   c1_queue_length_determinism [itemA, itemB] (some 0)
     [⟨QueueOperation.insert, 1, some [itemC], none⟩, removeHead] (some "A") (by decide)⟩

/-- Claim C2 counterexample: on the queue [A, B] with B selected, removing B
leaves no item whose primary display line equals the previous selection label
"B", yet the selection is NOT cleared: `StatefulList::select(None)` sets it to
index 0 (item A). -/
theorem c2_counterexample :
    (∀ it ∈ [itemA], it.two_line.line1 ≠ "B") ∧
    apply_queue_changes (some [itemA, itemB]) (some 1) [removeSecond] (some "B") =
      RunOut.ok (some [itemA], some 0) := by
  exact ⟨by decide, by decide⟩

/-- Claim C2 (amended): after `apply_queue_changes` has applied all diffs, if
no remaining queue item's primary display line equals the previously selected
item's primary display line, the selection is set to the FIRST item (index 0)
rather than cleared, because `StatefulList::select(None)` selects `Some(0)`. -/
theorem c2_no_match_selects_first (q : List QueueItem) (sel : Option Nat)
    (changes : List QueueChange) (s : String) (q' : List QueueItem)
    (hloop : applyChangesLoop q changes = LoopOut.done q')
    (hnone : ∀ it ∈ q', it.two_line.line1 ≠ s) :
    apply_queue_changes (some q) sel changes (some s) =
      RunOut.ok (some q', some 0) := by
  have hidx : q'.findIdx? (fun item => item.two_line.line1 == s) = none := by
    rw [List.findIdx?_eq_none_iff]
    intro x hx
    simpa using hnone x hx
  simp [apply_queue_changes, hloop, hidx, statefulListSelect]

/-- Witness for the amended C2, at the counterexample state. -/
theorem c2_witness :
    apply_queue_changes (some [itemA, itemB]) (some 1) [removeSecond] (some "B") =
      RunOut.ok (some [itemA], some 0) :=
  c2_no_match_selects_first [itemA, itemB] (some 1) [removeSecond] "B" [itemA]
    (by decide) (by decide)

/-- Claim C3: when some surviving item's primary display line equals the
previous selection's line, `apply_queue_changes` re-establishes the selection
on the first such item. -/
theorem c3_selection_preserved (q : List QueueItem) (sel : Option Nat)
    (changes : List QueueChange) (s : String) (q' : List QueueItem) (i : Nat)
    (hloop : applyChangesLoop q changes = LoopOut.done q')
    (hfind : q'.findIdx? (fun item => item.two_line.line1 == s) = some i) :
    apply_queue_changes (some q) sel changes (some s) =
      RunOut.ok (some q', some i) ∧
    ∃ it, q'.get? i = some it ∧ it.two_line.line1 = s := by
  constructor
  · simp [apply_queue_changes, hloop, hfind, statefulListSelect]
  · rw [List.findIdx?_eq_some_iff_getElem] at hfind
    obtain ⟨hlt, hp, _⟩ := hfind
    exact ⟨q'[i], by simp [List.get?_eq_getElem?, List.getElem?_eq_getElem hlt],
      by simpa using hp⟩

/-- Witness for C3: the spec scenario — queue [A, B, C] with B selected,
diff Remove(0, 1) — yields [B, C] with B (index 0) still selected. -/
theorem c3_witness :
    applyChangesLoop [itemA, itemB, itemC] [removeHead] =
      LoopOut.done [itemB, itemC] ∧
    (apply_queue_changes (some [itemA, itemB, itemC]) (some 1) [removeHead] (some "B") =
        RunOut.ok (some [itemB, itemC], some 0) ∧
      ∃ it, [itemB, itemC].get? 0 = some it ∧ it.two_line.line1 = "B") :=
  ⟨by decide,
   c3_selection_preserved [itemA, itemB, itemC] (some 1) [removeHead] "B"
     [itemB, itemC] 0 (by decide) (by decide)⟩

/-! ### Claim C5: preset matching is permutation-symmetric in the tail -/

lemma mergeSort_congr_of_perm {t1 t2 : List String} (h : t1.Perm t2) :
    t1.mergeSort (fun a b => a ≤ b) = t2.mergeSort (fun a b => a ≤ b) := by
  apply List.eq_of_perm_of_sorted (r := fun a b : String => a ≤ b)
  · exact ((List.mergeSort_perm t1 _).trans h).trans (List.mergeSort_perm t2 _).symm
  · have h1 := @List.sorted_mergeSort String (fun a b : String => decide (a ≤ b))
      (fun a b c hab hbc => by
        simp only [decide_eq_true_eq] at *
        exact le_trans hab hbc)
      (fun a b => by simpa using le_total a b) t1
    exact h1.imp (fun {a b} hab => by simpa using hab)
  · have h2 := @List.sorted_mergeSort String (fun a b : String => decide (a ≤ b))
      (fun a b c hab hbc => by
        simp only [decide_eq_true_eq] at *
        exact le_trans hab hbc)
      (fun a b => by simpa using le_total a b) t2
    exact h2.imp (fun {a b} hab => by simpa using hab)

/-- Claim C5: for every stored preset table and every non-empty output-id
list, `match_preset` returns the same result for any two lists with the same
anchor (first) id and the same multiset of remaining ids: the tail is sorted
before comparison, and membership comparison is order-insensitive. -/
theorem c5_match_preset_perm_invariant (presets : Option PresetTable)
    (x : String) (t1 t2 : List String) (h : t1.Perm t2) :
    match_preset presets (x :: t1) = match_preset presets (x :: t2) := by
  simp only [match_preset]
  rw [mergeSort_congr_of_perm h]

/-- Witness for C5: `match_preset([x,y,z]) == match_preset([x,z,y])`. -/
theorem c5_witness :
    (["y", "z"] : List String).Perm ["z", "y"] ∧
    match_preset (some presetsXYZ) ["x", "y", "z"] =
      match_preset (some presetsXYZ) ["x", "z", "y"] :=
  ⟨by decide,
   c5_match_preset_perm_invariant (some presetsXYZ) "x" ["y", "z"] ["z", "y"] (by decide)⟩

/-! ### Claim C6: totality of the event handlers -/

/-- Claim C6 counterexample: an inbound `BrowseResult` whose `Action::Message`
payload lacks the `is_error` field panics the handler thread
(`result.is_error.unwrap()` in src/io/roon.rs line 355), so not every inbound
event value is non-fatal. -/
theorem c6_counterexample :
    handleMessageArm none (some "ok") false (some "key") = RunOut.panic := rfl

/-- Claim C6 (amended): no protocol-shaped input is fatal.  For Message
results that carry both `is_error` and `message`, queue diff batches whose
fields are present and whose indices are valid, and non-empty match-preset
id lists, the handlers never panic; every failure path short-circuits via
`Option` and the system waits for the next event. -/
theorem c6_no_panic_on_wellformed :
    (∀ (ie : Option Bool) (msg : Option String) (zme : Bool) (ik : Option String),
      ie ≠ none → msg ≠ none → handleMessageArm ie msg zme ik ≠ RunOut.panic) ∧
    (∀ (q : List QueueItem) (sel : Option Nat) (changes : List QueueChange)
      (selected : Option String), validBatch q changes = true →
      apply_queue_changes (some q) sel changes selected ≠ RunOut.panic) ∧
    (∀ (presets : Option PresetTable) (ids : List String), ids ≠ [] →
      match_preset presets ids ≠ RunOut.panic) := by
  refine ⟨?_, ?_, ?_⟩
  · intro ie msg zme ik hie hmsg
    match ie, msg with
    | none, _ => exact absurd rfl hie
    | some _, none => exact absurd rfl hmsg
    | some e, some m =>
      simp only [handleMessageArm]
      split <;> simp
  · intro q sel changes selected h
    obtain ⟨q', hloop, -⟩ := applyChangesLoop_valid changes q h
    cases selected <;> simp [apply_queue_changes, hloop]
  · intro presets ids hne
    match ids with
    | [] => exact absurd rfl hne
    | x :: t => cases presets <;> simp [match_preset]

/-- Witness for the amended C6 at concrete well-formed inputs. -/
theorem c6_witness :
    handleMessageArm (some true) (some "Zone is not configured") true (some "k") ≠
      RunOut.panic ∧
    apply_queue_changes (some [itemA]) none [removeHead] none ≠ RunOut.panic ∧
    match_preset none ["a"] ≠ RunOut.panic :=
  ⟨c6_no_panic_on_wellformed.1 (some true) (some "Zone is not configured") true
      (some "k") (by simp) (by simp),
   c6_no_panic_on_wellformed.2.1 [itemA] none [removeHead] none (by decide),
   c6_no_panic_on_wellformed.2.2 none ["a"] (by simp)⟩

/-! ### Claim C8: random-album/random-track seeding bounds -/

/-- Claim C8: whenever a scripted session (key other than the primary
"tui_browse" key) receives a List response titled "Albums" or "Tracks" with
item count N > 0, the issued Load request asks for exactly one item
(count = Some 1) at an offset strictly below N, for every random draw. -/
theorem c8_random_seed_bounds (title : String) (count : Nat) (dOff : Option Nat)
    (key : String) (rng : Nat)
    (htitle : title = "Albums" ∨ title = "Tracks") (hkey : key ≠ "tui_browse")
    (hcount : 0 < count) :
    ∃ opts, listArm (some ⟨title, count, dOff⟩) (some key) rng true =
        RunOut.ok (some opts) ∧
      opts.count = some 1 ∧ opts.offset < count ∧
      opts.set_display_offset = opts.offset := by
  have hk : (key == "tui_browse") = false := by simpa using hkey
  have ht : (title == "Albums" || title == "Tracks") = true := by
    rcases htitle with h | h <;> simp [h]
  have hc : (count == 0) = false := by simpa using hcount.ne'
  refine ⟨⟨rng % count, rng % count, some 1, some key⟩, ?_, rfl,
    Nat.mod_lt rng hcount, rfl⟩
  simp [listArm, hk, ht, hc]

/-- Witness for C8: an "Albums" list of count 5 on session key "z1" with
draw 12 loads one item at offset 12 % 5 = 2. -/
theorem c8_witness :
    ∃ opts, listArm (some ⟨"Albums", 5, none⟩) (some "z1") 12 true =
        RunOut.ok (some opts) ∧
      opts.count = some 1 ∧ opts.offset < 5 ∧
      opts.set_display_offset = opts.offset :=
  c8_random_seed_bounds "Albums" 5 none "z1" 12 (Or.inl rfl) (by simp) (by simp)

/-! ### Claim C9: inconsistent pagination requests a refresh -/

/-- Claim C9: when a primary-session list chunk arrives whose offset is
neither 0 nor the current length of the held browse list, a `BrowseRefresh`
request is issued and the held items and selection are left unchanged. -/
theorem c9_inconsistent_pagination (held : List BrowseItem) (sel : Option Nat)
    (view : Option View) (offset : Nat) (incoming : List BrowseItem)
    (h0 : offset ≠ 0) (hlen : offset ≠ held.length) :
    browseListArm (some held) sel view offset incoming = ⟨some held, sel, true⟩ := by
  have h0' : (offset == 0) = false := by simpa using h0
  have hl' : (offset == held.length) = false := by simpa using hlen
  simp [browseListArm, h0', hl']

/-- Witness for C9: a chunk at offset 5 against a held list of length 1. -/
theorem c9_witness :
    browseListArm (some [⟨"X", none⟩]) (some 0) (some View.browse) 5 [⟨"Y", none⟩] =
      ⟨some [⟨"X", none⟩], some 0, true⟩ :=
  c9_inconsistent_pagination [⟨"X", none⟩] (some 0) (some View.browse) 5 [⟨"Y", none⟩]
    (by simp) (by simp)

/-! ### Claim C4: update_grouping when the target is already realized -/

lemma match_preset_ok (presets : Option PresetTable) (ids : List String)
    (h : ids ≠ []) : ∃ p, match_preset presets ids = RunOut.ok p := by
  match ids with
  | [] => exact absurd rfl h
  | x :: t => cases presets <;> exact ⟨_, rfl⟩

lemma updateGroupingLoop_matched (ht : Bool) (presets : Option PresetTable)
    (target : List String) (htne : target ≠ []) :
    ∀ (zones : List Zone) (mz : List (String × String)),
      (∃ z ∈ zones,
        zoneMatchesTarget (z.outputs.map (fun o => o.output_id)) target = true) →
      (∀ z ∈ zones,
        zoneMatchesTarget (z.outputs.map (fun o => o.output_id)) target = true ∨
        ∀ o ∈ z.outputs, o.output_id ∉ target) →
      ∃ r, updateGroupingLoop ht presets mz target zones = RunOut.ok r ∧
        r.commands = [] ∧ r.pending = none := by
  intro zones
  induction zones with
  | nil =>
    rintro mz ⟨z, hz, -⟩ -
    exact absurd hz (List.not_mem_nil z)
  | cons z0 rest ih =>
    intro mz hex hall
    by_cases hm :
        zoneMatchesTarget (z0.outputs.map (fun o => o.output_id)) target = true
    · obtain ⟨p, hp⟩ := match_preset_ok presets target htne
      simp only [updateGroupingLoop, hm, if_true, hp]
      cases p with
      | none => exact ⟨_, rfl, rfl, rfl⟩
      | some name => exact ⟨_, rfl, rfl, rfl⟩
    · have hdisj : ∀ o ∈ z0.outputs, o.output_id ∉ target :=
        (hall z0 (by simp)).resolve_left hm
      have hov :
          zoneOverlapsTarget (z0.outputs.map (fun o => o.output_id)) target = false := by
        rw [Bool.eq_false_iff]
        intro hcontra
        simp only [zoneOverlapsTarget, List.any_eq_true] at hcontra
        obtain ⟨c, hc, hc2⟩ := hcontra
        simp only [List.mem_map] at hc
        obtain ⟨o, ho, rfl⟩ := hc
        exact hdisj o ho (by simpa using hc2)
      have hm' :
          zoneMatchesTarget (z0.outputs.map (fun o => o.output_id)) target = false := by
        rw [Bool.eq_false_iff]; exact hm
      obtain ⟨z, hz, hzm⟩ := hex
      have hz' : z ∈ rest := by
        rcases List.mem_cons.mp hz with rfl | h
        · exact absurd hzm hm
        · exact h
      have step :
          updateGroupingLoop ht presets mz target (z0 :: rest) =
            updateGroupingLoop ht presets mz target rest := by
        simp [updateGroupingLoop, hm', hov]
      rw [step]
      exact ih mz ⟨z, hz', hzm⟩ (fun z' hz'' => hall z' (List.mem_cons_of_mem _ hz''))

/-- Claim C4 counterexample: the zone map holds `zoneSolo`, whose output list
has the same length, anchor and set as the target `["a"]`, yet
`update_grouping` issues an `ungroup_outputs` command and returns pending
ids, because the overlapping two-output zone `zonePair` is reached first in
the (unspecified) zone-map iteration order. -/
theorem c4_counterexample :
    zoneMatchesTarget (zoneSolo.outputs.map (fun o => o.output_id)) ["a"] = true ∧
    zoneSolo ∈ [zonePair, zoneSolo] ∧
    update_grouping true none [] [zonePair, zoneSolo] ["a"] =
      RunOut.ok ⟨[GroupCommand.ungroup ["a", "c"]], [], false, none, some ["a"]⟩ :=
  ⟨by decide, by decide, by decide⟩

/-- Claim C4 (amended): `update_grouping` is idempotent when the target is
already realized, provided no OTHER live zone's outputs overlap the target
(live zones never share outputs).  If some live zone's output-id list has the
same length, the same anchor id and the same id set as the non-empty target,
and every other zone is disjoint from the target, then `update_grouping`
issues no group/ungroup command and returns no pending ids, and invoking it
again on the resulting state issues no command either. -/
theorem c4_idempotent_when_disjoint (ht : Bool) (presets : Option PresetTable)
    (mz : List (String × String)) (zones : List Zone) (target : List String)
    (htne : target ≠ [])
    (hex : ∃ z ∈ zones,
      zoneMatchesTarget (z.outputs.map (fun o => o.output_id)) target = true)
    (hall : ∀ z ∈ zones,
      zoneMatchesTarget (z.outputs.map (fun o => o.output_id)) target = true ∨
      ∀ o ∈ z.outputs, o.output_id ∉ target) :
    ∃ r, update_grouping ht presets mz zones target = RunOut.ok r ∧
      r.commands = [] ∧ r.pending = none ∧
      ∃ r2, update_grouping ht presets r.matched_zones zones target = RunOut.ok r2 ∧
        r2.commands = [] ∧ r2.pending = none := by
  obtain ⟨r, hr, hc, hp⟩ := updateGroupingLoop_matched ht presets target htne zones mz hex hall
  obtain ⟨r2, hr2, hc2, hp2⟩ :=
    updateGroupingLoop_matched ht presets target htne zones r.matched_zones hex hall
  exact ⟨r, hr, hc, hp, r2, hr2, hc2, hp2⟩

/-- Witness for the amended C4: a zone map holding exactly the matching zone. -/
theorem c4_witness :
    ∃ r, update_grouping true none [] [zoneSolo] ["a"] = RunOut.ok r ∧
      r.commands = [] ∧ r.pending = none ∧
      ∃ r2, update_grouping true none r.matched_zones [zoneSolo] ["a"] = RunOut.ok r2 ∧
        r2.commands = [] ∧ r2.pending = none :=
  c4_idempotent_when_disjoint true none [] [zoneSolo] ["a"] (by simp)
    ⟨zoneSolo, by simp, by decide⟩
    (by
      intro z hz
      rw [List.mem_singleton] at hz
      subst hz
      exact Or.inl (by decide))

/-! ### Claim C7: scripted browse replay terminates -/

lemma tblLookup_update_self {α : Type} (v : α) :
    ∀ (t : List (String × α)) (k : String), (tblLookup t k).isSome = true →
      tblLookup (tblUpdate t k v) k = some v := by
  intro t k
  induction t with
  | nil => simp [tblLookup]
  | cons p rest ih =>
    obtain ⟨p1, p2⟩ := p
    intro h
    by_cases hp : p1 = k
    · subst hp
      simp [tblUpdate, tblLookup, List.find?]
    · have hp' : (p1 == k) = false := by simpa using hp
      have hu : tblUpdate ((p1, p2) :: rest) k v = (p1, p2) :: tblUpdate rest k v := by
        simp [tblUpdate, hp', hp]
      rw [hu]
      have hlk : tblLookup ((p1, p2) :: rest) k = tblLookup rest k := by
        simp [tblLookup, List.find?, hp', hp]
      rw [hlk] at h
      have hr := ih h
      simpa [tblLookup, List.find?, hp', hp] using hr

lemma tblLookup_remove_self {α : Type} :
    ∀ (t : List (String × α)) (k : String), tblLookup (tblRemove t k) k = none := by
  intro t k
  induction t with
  | nil => simp [tblRemove, tblLookup]
  | cons p rest ih =>
    obtain ⟨p1, p2⟩ := p
    by_cases hp : p1 = k
    · subst hp
      simpa [tblRemove, List.filter_cons] using ih
    · have hp' : (p1 == k) = false := by simpa using hp
      have hr : tblRemove ((p1, p2) :: rest) k = (p1, p2) :: tblRemove rest k := by
        simp [tblRemove, List.filter_cons, hp', hp]
      rw [hr]
      simpa [tblLookup, List.find?, hp', hp] using ih

lemma runScripted_spec (key : String) (profile : Option String) :
    ∀ (resps : List LoadResponse) (s : List String)
      (paths : List (String × List String)),
      tblLookup paths key = some s → s ≠ [] →
      resps.length ≤ s.length →
      List.Forall₂ (fun step r =>
        (selectItem step r.listTitle r.items profile).isSome = true)
        (s.reverse.take resps.length) resps →
      (runScripted paths key profile true resps).2 = resps.length ∧
      tblLookup (runScripted paths key profile true resps).1 key =
        (if resps.length = s.length then none
         else some (s.take (s.length - resps.length))) := by
  intro resps
  induction resps with
  | nil =>
    intro s paths hlk hne _ _
    refine ⟨rfl, ?_⟩
    have h0 : ¬ ((0 : Nat) = s.length) := fun h =>
      hne (List.eq_nil_of_length_eq_zero h.symm)
    simpa [runScripted, h0] using hlk
  | cons r rs ih =>
    intro s paths hlk hne hle hf
    rcases s.eq_nil_or_concat with hnil | ⟨s', a, hs⟩
    · exact absurd hnil hne
    have hs' : s = s' ++ [a] := by simpa [List.concat_eq_append] using hs
    subst hs'
    have hstep : scriptedLoadStep paths key r.listTitle r.items profile true =
        (if s'.isEmpty then tblRemove paths key else tblUpdate paths key s',
          ((selectItem a r.listTitle r.items profile).isSome && true)) := by
      simp [scriptedLoadStep, hlk]
    have hrev : (s' ++ [a]).reverse = a :: s'.reverse := by simp
    rw [hrev] at hf
    simp only [List.length_cons, List.take_succ_cons] at hf
    cases hf with
    | cons hsel hfrest =>
      by_cases hse : s' = []
      · subst hse
        have hrs : rs = [] := by
          have hl0 : rs.length ≤ 0 := by simpa using hle
          exact List.eq_nil_of_length_eq_zero (Nat.le_zero.mp hl0)
        subst hrs
        have hrun : runScripted paths key profile true [r] =
            (tblRemove paths key, 1) := by
          simp [runScripted, hstep, hsel]
        rw [hrun]
        refine ⟨rfl, ?_⟩
        simp [tblLookup_remove_self]
      · have hie : s'.isEmpty = false := by
          simpa [List.isEmpty_iff] using hse
        have hlk' : tblLookup (tblUpdate paths key s') key = some s' :=
          tblLookup_update_self s' paths key (by simp [hlk])
        have hle' : rs.length ≤ s'.length := by
          have hx := hle
          simp at hx
          omega
        obtain ⟨hcount, hlook⟩ := ih s' (tblUpdate paths key s') hlk' hse hle' hfrest
        have hrun : runScripted paths key profile true (r :: rs) =
            ((runScripted (tblUpdate paths key s') key profile true rs).1,
              1 + (runScripted (tblUpdate paths key s') key profile true rs).2) := by
          simp [runScripted, hstep, hie, hsel]
        rw [hrun]
        constructor
        · simp [hcount]
          omega
        · rw [hlook]
          have hlen2 : (s' ++ [a] : List String).length = s'.length + 1 := by simp
          by_cases hq : rs.length = s'.length
          · simp [hq, hlen2]
          · have hne2 : ¬ ((r :: rs).length = (s' ++ [a] : List String).length) := by
              simp only [List.length_cons, hlen2]
              omega
            have htake : (s' ++ [a]).take ((s' ++ [a]).length - (r :: rs).length) =
                s'.take (s'.length - rs.length) := by
              have harith : (s' ++ [a]).length - (r :: rs).length =
                  s'.length - rs.length := by
                simp only [List.length_cons, hlen2]
                omega
              rw [harith, List.take_append_of_le_length (by omega)]
            simp [hq, hne2, htake]

/-- Claim C7: a scripted browse session whose pending script has k entries
consumes exactly one script step per matching Load response, issues exactly k
browse steps before the session is removed from the session table, and is
discarded exactly when its script empties (present with the right remainder
after every strictly shorter prefix of responses). -/
theorem c7_scripted_replay_terminates (paths : List (String × List String))
    (key : String) (profile : Option String) (s : List String)
    (resps : List LoadResponse)
    (hlk : tblLookup paths key = some s) (hne : s ≠ [])
    (hlen : resps.length = s.length)
    (hmatch : List.Forall₂ (fun step r =>
      (selectItem step r.listTitle r.items profile).isSome = true) s.reverse resps) :
    (runScripted paths key profile true resps).2 = s.length ∧
    tblLookup (runScripted paths key profile true resps).1 key = none ∧
    ∀ j, j < s.length →
      (runScripted paths key profile true (resps.take j)).2 = j ∧
      tblLookup (runScripted paths key profile true (resps.take j)).1 key =
        some (s.take (s.length - j)) := by
  have hmatch' : List.Forall₂ (fun step r =>
      (selectItem step r.listTitle r.items profile).isSome = true)
      (s.reverse.take resps.length) resps := by
    have hrl : s.reverse.length ≤ resps.length := by simp [hlen]
    rwa [List.take_of_length_le hrl]
  obtain ⟨hcount, hlook⟩ :=
    runScripted_spec key profile resps s paths hlk hne (le_of_eq hlen) hmatch'
  refine ⟨by simpa [hlen] using hcount, ?_, ?_⟩
  · rw [hlook]
    simp [hlen]
  · intro j hj
    have hjtake : (resps.take j).length = j := by
      rw [List.length_take]
      omega
    have hfj : List.Forall₂ (fun step r =>
        (selectItem step r.listTitle r.items profile).isSome = true)
        (s.reverse.take (resps.take j).length) (resps.take j) := by
      have := List.forall₂_take j hmatch
      rwa [hjtake]
    obtain ⟨hcj, hlj⟩ := runScripted_spec key profile (resps.take j) s paths hlk hne
      (by omega) hfj
    refine ⟨by rwa [hjtake] at hcj, ?_⟩
    rw [hlj, hjtake]
    have hjne : ¬ (j = s.length) := by omega
    simp [hjne]

/-- Witness for C7: the three-step profile script `["", "Profile", "Settings"]`
keyed by zone "z1", fed three matching responses, issues three browse steps
and is then removed; after 0, 1 or 2 responses it is still present. -/
theorem c7_witness :
    (runScripted [("z1", ["", "Profile", "Settings"])] "z1" (some "Alice") true
      [⟨"Home", [⟨"Settings", some "k1"⟩]⟩,
       ⟨"Settings", [⟨"Profile", some "k2"⟩]⟩,
       ⟨"Profile", [⟨"Alice", some "k3"⟩]⟩]).2 = 3 ∧
    tblLookup (runScripted [("z1", ["", "Profile", "Settings"])] "z1" (some "Alice") true
      [⟨"Home", [⟨"Settings", some "k1"⟩]⟩,
       ⟨"Settings", [⟨"Profile", some "k2"⟩]⟩,
       ⟨"Profile", [⟨"Alice", some "k3"⟩]⟩]).1 "z1" = none ∧
    ∀ j, j < 3 →
      (runScripted [("z1", ["", "Profile", "Settings"])] "z1" (some "Alice") true
        ([⟨"Home", [⟨"Settings", some "k1"⟩]⟩,
          ⟨"Settings", [⟨"Profile", some "k2"⟩]⟩,
          ⟨"Profile", [⟨"Alice", some "k3"⟩]⟩].take j)).2 = j ∧
      tblLookup (runScripted [("z1", ["", "Profile", "Settings"])] "z1" (some "Alice") true
        ([⟨"Home", [⟨"Settings", some "k1"⟩]⟩,
          ⟨"Settings", [⟨"Profile", some "k2"⟩]⟩,
          ⟨"Profile", [⟨"Alice", some "k3"⟩]⟩].take j)).1 "z1" =
        some ((["", "Profile", "Settings"] : List String).take (3 - j)) := by
  have h := c7_scripted_replay_terminates [("z1", ["", "Profile", "Settings"])] "z1"
    (some "Alice") ["", "Profile", "Settings"]
    [⟨"Home", [⟨"Settings", some "k1"⟩]⟩,
     ⟨"Settings", [⟨"Profile", some "k2"⟩]⟩,
     ⟨"Profile", [⟨"Alice", some "k3"⟩]⟩]
    (by decide) (by decide) (by decide)
    (by
      show List.Forall₂ _ ["Settings", "Profile", ""] _
      exact .cons (by decide) (.cons (by decide) (.cons (by decide) .nil)))
  exact h

/-! ### Claim C10: shape of the zone display list -/

lemma sublist_flatMap {α β : Type} {l1 l2 : List α} (f : α → List β)
    (h : l1.Sublist l2) : (l1.flatMap f).Sublist (l2.flatMap f) := by
  induction h with
  | slnil => simp
  | cons a h ih => exact ih.trans (List.sublist_append_right _ _)
  | cons₂ a h ih => exact ih.append_left (f a)

lemma filterMapIfNot_sublist {α β : Type} (c : α → Bool) (f : α → β) :
    ∀ l : List α,
      (l.filterMap (fun a => if c a then none else some (f a))).Sublist (l.map f) := by
  intro l
  induction l with
  | nil => simp
  | cons a rest ih =>
    by_cases hc : c a = true
    · simp only [List.filterMap_cons, hc, if_true, List.map_cons]
      exact ih.trans (List.sublist_cons_self _ _)
    · have hc' : c a = false := by simpa using hc
      simp only [List.filterMap_cons, hc', if_false, List.map_cons]
      exact ih.cons₂ (f a)

lemma mergeSort_nameLe_sorted (l : List (EndPoint × String)) :
    (l.mergeSort nameLe).Pairwise (fun a b => a.2 ≤ b.2) := by
  have h := @List.sorted_mergeSort (EndPoint × String) nameLe
    (fun a b c hab hbc => by
      simp only [nameLe, decide_eq_true_eq] at *
      exact le_trans hab hbc)
    (fun a b => by
      simp only [nameLe]
      simpa using le_total a.2 b.2) l
  exact h.imp (fun {a b} hab => by simpa [nameLe] using hab)

lemma zoneEntries_kind {zm : List (String × Zone)} {mz : List (String × String)} :
    ∀ x ∈ zoneEntries zm mz, endPointKind x.1 = 0 := by
  intro x hx
  simp only [zoneEntries, List.mem_map] at hx
  obtain ⟨e, -, rfl⟩ := hx
  rfl

lemma outputEntries_kind {zm : List (String × Zone)} :
    ∀ x ∈ outputEntries zm, endPointKind x.1 = 1 := by
  intro x hx
  simp only [outputEntries, List.mem_flatMap] at hx
  obtain ⟨e, -, hx⟩ := hx
  simp only [List.mem_map] at hx
  obtain ⟨o, -, rfl⟩ := hx
  rfl

lemma presetEntries_kind {mz : List (String × String)} {table : PresetTable} :
    ∀ x ∈ presetEntries mz table, endPointKind x.1 = 2 := by
  intro x hx
  simp only [presetEntries, List.mem_filterMap] at hx
  obtain ⟨p, -, hp⟩ := hx
  split at hp
  · simp at hp
  · injection hp with hp'
    subst hp'
    rfl

lemma zoneEntries_nodup {zm : List (String × Zone)} {mz : List (String × String)}
    (hz : (zm.map (fun e => e.1)).Nodup) : (zoneEntries zm mz).Nodup := by
  have hm : (zoneEntries zm mz).map Prod.fst =
      (zm.map (fun e => e.1)).map EndPoint.zone := by
    simp [zoneEntries, List.map_map, Function.comp]
  have hnd : ((zoneEntries zm mz).map Prod.fst).Nodup := by
    rw [hm]
    exact hz.map (fun a b hab => by injection hab)
  exact hnd.of_map Prod.fst

lemma outputEntries_nodup {zm : List (String × Zone)}
    (ho : (zm.flatMap (fun e => e.2.outputs.map (fun o => o.output_id))).Nodup) :
    (outputEntries zm).Nodup := by
  have hsub := sublist_flatMap
    (fun e : String × Zone => e.2.outputs.map (fun o => o.output_id))
    (List.filter_sublist (p := fun entry => entry.2.outputs.length > 1) zm)
  have hids : ((zm.filter (fun entry => entry.2.outputs.length > 1)).flatMap
      (fun e => e.2.outputs.map (fun o => o.output_id))).Nodup := ho.sublist hsub
  have hm : (outputEntries zm).map Prod.fst =
      ((zm.filter (fun entry => entry.2.outputs.length > 1)).flatMap
        (fun e => e.2.outputs.map (fun o => o.output_id))).map EndPoint.output := by
    simp only [outputEntries, List.map_flatMap, List.map_map]
    rfl
  have hnd : ((outputEntries zm).map Prod.fst).Nodup := by
    rw [hm]
    exact hids.map (fun a b hab => by injection hab)
  exact hnd.of_map Prod.fst

lemma presetEntries_nodup {mz : List (String × String)} {table : PresetTable}
    (hp : (table.map (fun p => p.1)).Nodup) : (presetEntries mz table).Nodup := by
  have hm : (presetEntries mz table).map Prod.snd =
      table.filterMap (fun p =>
        if mz.any (fun m => m.2 == p.1) then none else some p.1) := by
    simp [presetEntries, List.map_filterMap, apply_ite]
  have hsub := filterMapIfNot_sublist
    (fun p : String × List (String × Option Int) => mz.any (fun m => m.2 == p.1))
    (fun p => p.1) table
  have hnd2 : (table.filterMap (fun p =>
      if mz.any (fun m => m.2 == p.1) then none else some p.1)).Nodup :=
    hp.sublist hsub
  have hnd : ((presetEntries mz table).map Prod.snd).Nodup := by
    rw [hm]; exact hnd2
  exact hnd.of_map Prod.snd

unseal String.ltb List.merge List.mergeSort

/-- Claim C10 counterexample: a zone map with one zone named "B" (outputs
"A","C") and one zone named "D" (outputs "A","E") produces a display list
that is NOT ordered by display name over the whole list (the zone segment
ends at "D" before the output segment restarts at "A") and, because the two
zones share output "oa", contains a duplicate entry. -/
theorem c10_counterexample :
    send_zone_list zoneMapCex [] none =
      [(EndPoint.zone "z1", "B"), (EndPoint.zone "z2", "D"),
       (EndPoint.output "oa", "A"), (EndPoint.output "oa", "A"),
       (EndPoint.output "oc", "C"), (EndPoint.output "oe", "E")] ∧
    ¬ (send_zone_list zoneMapCex [] none).Pairwise (fun a b => a.2 ≤ b.2) ∧
    ¬ (send_zone_list zoneMapCex [] none).Nodup :=
  ⟨by decide, by decide, by decide⟩

/-- Claim C10 (amended): the display list is the concatenation of three
segments — zone entries, output entries of multi-output zones, unmatched
preset entries — EACH sorted by display name (not the whole list); and it
contains no duplicate entries provided the zone map is keyed uniquely,
distinct zones expose disjoint output-id sets, and preset names are unique. -/
theorem c10_segments_sorted_nodup (zm : List (String × Zone))
    (mz : List (String × String)) (presets : Option PresetTable)
    (hz : (zm.map (fun e => e.1)).Nodup)
    (ho : (zm.flatMap (fun e => e.2.outputs.map (fun o => o.output_id))).Nodup)
    (hp : ∀ table, presets = some table → (table.map (fun p => p.1)).Nodup) :
    ∃ zs os ps, send_zone_list zm mz presets = zs ++ os ++ ps ∧
      zs.Pairwise (fun a b => a.2 ≤ b.2) ∧
      os.Pairwise (fun a b => a.2 ≤ b.2) ∧
      ps.Pairwise (fun a b => a.2 ≤ b.2) ∧
      (send_zone_list zm mz presets).Nodup := by
  have hzs_nodup : ((zoneEntries zm mz).mergeSort nameLe).Nodup :=
    ((List.mergeSort_perm (zoneEntries zm mz) nameLe).symm).nodup (zoneEntries_nodup hz)
  have hos_nodup : ((outputEntries zm).mergeSort nameLe).Nodup :=
    ((List.mergeSort_perm (outputEntries zm) nameLe).symm).nodup (outputEntries_nodup ho)
  have hzs_kind : ∀ x ∈ (zoneEntries zm mz).mergeSort nameLe, endPointKind x.1 = 0 :=
    fun x hx => zoneEntries_kind x ((List.mergeSort_perm _ nameLe).mem_iff.mp hx)
  have hos_kind : ∀ x ∈ (outputEntries zm).mergeSort nameLe, endPointKind x.1 = 1 :=
    fun x hx => outputEntries_kind x ((List.mergeSort_perm _ nameLe).mem_iff.mp hx)
  have hdisj_zo : ((zoneEntries zm mz).mergeSort nameLe).Disjoint
      ((outputEntries zm).mergeSort nameLe) := by
    intro x hxz hxo
    have h0 := hzs_kind x hxz
    have h1 := hos_kind x hxo
    omega
  cases presets with
  | none =>
    refine ⟨(zoneEntries zm mz).mergeSort nameLe, (outputEntries zm).mergeSort nameLe,
      [], by simp [send_zone_list], mergeSort_nameLe_sorted _, mergeSort_nameLe_sorted _,
      List.Pairwise.nil, ?_⟩
    have heq : send_zone_list zm mz none =
        (zoneEntries zm mz).mergeSort nameLe ++ (outputEntries zm).mergeSort nameLe := by
      simp [send_zone_list]
    rw [heq]
    exact hzs_nodup.append hos_nodup hdisj_zo
  | some table =>
    have hps_nodup : ((presetEntries mz table).mergeSort nameLe).Nodup :=
      ((List.mergeSort_perm (presetEntries mz table) nameLe).symm).nodup
        (presetEntries_nodup (hp table rfl))
    have hps_kind : ∀ x ∈ (presetEntries mz table).mergeSort nameLe,
        endPointKind x.1 = 2 :=
      fun x hx => presetEntries_kind x ((List.mergeSort_perm _ nameLe).mem_iff.mp hx)
    refine ⟨(zoneEntries zm mz).mergeSort nameLe, (outputEntries zm).mergeSort nameLe,
      (presetEntries mz table).mergeSort nameLe, by simp [send_zone_list],
      mergeSort_nameLe_sorted _, mergeSort_nameLe_sorted _, mergeSort_nameLe_sorted _, ?_⟩
    have heq : send_zone_list zm mz (some table) =
        ((zoneEntries zm mz).mergeSort nameLe ++ (outputEntries zm).mergeSort nameLe) ++
          (presetEntries mz table).mergeSort nameLe := by
      simp [send_zone_list]
    rw [heq]
    refine (hzs_nodup.append hos_nodup hdisj_zo).append hps_nodup ?_
    intro x hxzo hxp
    have h2 := hps_kind x hxp
    rcases List.mem_append.mp hxzo with hxz | hxo
    · have h0 := hzs_kind x hxz
      omega
    · have h1 := hos_kind x hxo
      omega

/-- Witness for the amended C10 on a one-zone map with no presets. -/
theorem c10_witness :
    ∃ zs os ps, send_zone_list zoneMapSolo [] none = zs ++ os ++ ps ∧
      zs.Pairwise (fun a b => a.2 ≤ b.2) ∧
      os.Pairwise (fun a b => a.2 ≤ b.2) ∧
      ps.Pairwise (fun a b => a.2 ≤ b.2) ∧
      (send_zone_list zoneMapSolo [] none).Nodup :=
  c10_segments_sorted_nodup zoneMapSolo [] none (by decide) (by decide)
    (by intro table h; simp at h)
